import Mathlib

/-!
Shallow embedding of the ordered-hierarchy store and drag reconciler of the
question-sheet frontend. The store state and its mutations are translated
from `src/Frontend/src/store/QuestionStore.ts`; the drag-gesture dispatch is
translated from `handleDragEnd` in `src/Frontend/src/App.tsx`. JavaScript
objects used as string-keyed records are modelled as association lists with
insertion-order key semantics (lookup finds the unique entry; assignment
replaces in place or appends a fresh key at the end), matching the JS
iteration order for non-index string keys.
-/

namespace QSheet

/-- Embedded nested `questionId` record of a `Question` (QuestionStore.ts lines 12-18). -/
structure QuestionMeta where
  _id : String
  name : String
  difficulty : String
  platform : String
  problemUrl : String
deriving Repr, DecidableEq

/-- Embedded `Question` interface (QuestionStore.ts lines 6-19). `subTopic` and
`resource` are nullable in the source, modelled as `Option`. -/
structure Question where
  _id : String
  title : String
  topic : String
  subTopic : Option String
  resource : Option String
  questionId : QuestionMeta
deriving Repr, DecidableEq

/-- A JS object used as a record with string keys, in key insertion order. -/
abbrev JsRecord (α : Type) := List (String × α)

/-- Lookup `m[k]`: the value of the unique entry with key `k`, if present. -/
def recGet {α : Type} : JsRecord α → String → Option α
  | [], _ => none
  | (k', v) :: rest, k => if k' = k then some v else recGet rest k

/-- Embeds the JS idiom `m[k] || []` (absent key defaults to an empty list). -/
def recGetD (m : JsRecord (List String)) (k : String) : List String :=
  (recGet m k).getD []

/-- Assignment `m[k] = v`: replaces the value in place when `k` is present,
otherwise appends the new key at the end (JS object key insertion order). -/
def recSet {α : Type} : JsRecord α → String → α → JsRecord α
  | [], k, v => [(k, v)]
  | (k', v') :: rest, k, v =>
    if k' = k then (k, v) :: rest else (k', v') :: recSet rest k v

/-- `delete m[k]` on a JS object. -/
def recDelete {α : Type} (m : JsRecord α) (k : String) : JsRecord α :=
  m.filter (fun p => p.1 ≠ k)

/-- Embedded `SheetConfig` interface (QuestionStore.ts lines 21-25). -/
structure SheetConfig where
  topicOrder : List String
  subTopicOrder : JsRecord (List String)
  questionOrder : List String
deriving Repr, DecidableEq

/-- The store state owned by `useQuestionStore` (config, questions, loading, error). -/
structure QuestionState where
  config : SheetConfig
  questions : List Question
  loading : Bool
  error : Option String
deriving Repr, DecidableEq

/-- `addTopic` (QuestionStore.ts lines 197-207): no-op when the name is already
present, else appended to the end of `topicOrder`. -/
def addTopic (s : QuestionState) (topicName : String) : QuestionState :=
  if s.config.topicOrder.contains topicName then s
  else { s with config := { s.config with topicOrder := s.config.topicOrder ++ [topicName] } }

/-- `editTopic` (QuestionStore.ts lines 209-237): renames in `topicOrder`, rebuilds
`subTopicOrder` assigning each (possibly renamed) key in iteration order, and
renames on every question's `topic`. -/
def editTopic (s : QuestionState) (oldName newName : String) : QuestionState :=
  let updatedTopicOrder := s.config.topicOrder.map
    (fun topic => if topic = oldName then newName else topic)
  let updatedSubTopicOrder := s.config.subTopicOrder.foldl
    (fun acc p => recSet acc (if p.1 = oldName then newName else p.1) p.2) []
  let updatedQuestions := s.questions.map
    (fun q => if q.topic = oldName then { q with topic := newName } else q)
  { s with
    config := { s.config with
      topicOrder := updatedTopicOrder
      subTopicOrder := updatedSubTopicOrder }
    questions := updatedQuestions }

/-- `deleteTopic` (QuestionStore.ts lines 239-265): removes the topic from
`topicOrder`, drops its `subTopicOrder` entry, deletes its questions, and keeps
in `questionOrder` only ids of surviving questions. -/
def deleteTopic (s : QuestionState) (topicName : String) : QuestionState :=
  let updatedTopicOrder := s.config.topicOrder.filter (fun topic => topic ≠ topicName)
  let updatedSubTopicOrder := recDelete s.config.subTopicOrder topicName
  let updatedQuestions := s.questions.filter (fun q => q.topic ≠ topicName)
  let updatedQuestionOrder := s.config.questionOrder.filter
    (fun qId => updatedQuestions.any (fun q => q._id = qId))
  { s with
    config := { topicOrder := updatedTopicOrder
                subTopicOrder := updatedSubTopicOrder
                questionOrder := updatedQuestionOrder }
    questions := updatedQuestions }

/-- `reorderTopics` (QuestionStore.ts lines 267-275): replaces `topicOrder` wholesale. -/
def reorderTopics (s : QuestionState) (newOrder : List String) : QuestionState :=
  { s with config := { s.config with topicOrder := newOrder } }

/-- `addSubTopic` (QuestionStore.ts lines 278-293). -/
def addSubTopic (s : QuestionState) (topicName subTopicName : String) : QuestionState :=
  let currentSubTopics := recGetD s.config.subTopicOrder topicName
  if currentSubTopics.contains subTopicName then s
  else { s with config := { s.config with
          subTopicOrder := recSet s.config.subTopicOrder topicName
            (currentSubTopics ++ [subTopicName]) } }

/-- `editSubTopic` (QuestionStore.ts lines 295-321). -/
def editSubTopic (s : QuestionState) (topicName oldName newName : String) : QuestionState :=
  let currentSubTopics := recGetD s.config.subTopicOrder topicName
  let updatedSubTopics := currentSubTopics.map
    (fun st => if st = oldName then newName else st)
  let updatedQuestions := s.questions.map (fun q =>
    if q.topic = topicName ∧ q.subTopic = some oldName
    then { q with subTopic := some newName } else q)
  { s with
    config := { s.config with
      subTopicOrder := recSet s.config.subTopicOrder topicName updatedSubTopics }
    questions := updatedQuestions }

/-- `deleteSubTopic` (QuestionStore.ts lines 323-349): filters the name out of
`subTopicOrder[topicName]` (the JS `|| []` default applies when the key is
absent) and assigns the result back under `topicName`; questions previously in
the subtopic are orphaned to `subTopic = null`, none is deleted. -/
def deleteSubTopic (s : QuestionState) (topicName subTopicName : String) : QuestionState :=
  let currentSubTopics := recGetD s.config.subTopicOrder topicName
  let updatedSubTopics := currentSubTopics.filter (fun st => st ≠ subTopicName)
  let updatedQuestions := s.questions.map (fun q =>
    if q.topic = topicName ∧ q.subTopic = some subTopicName
    then { q with subTopic := none } else q)
  { s with
    config := { s.config with
      subTopicOrder := recSet s.config.subTopicOrder topicName updatedSubTopics }
    questions := updatedQuestions }

/-- `reorderSubTopics` (QuestionStore.ts lines 351-362). -/
def reorderSubTopics (s : QuestionState) (topicName : String) (newOrder : List String) :
    QuestionState :=
  { s with config := { s.config with
      subTopicOrder := recSet s.config.subTopicOrder topicName newOrder } }

/-- `moveSubTopicToTopic` (QuestionStore.ts lines 364-399): filters the name out
of the source topic's list, appends it at the end of the destination topic's
list, and relabels questions in `(fromTopic, subTopicName)` to `toTopic`. The
two object assignments `[fromTopic]: ...` then `[toTopic]: ...` are performed
in that order, so when `fromTopic = toTopic` the second overwrites the first. -/
def moveSubTopicToTopic (s : QuestionState) (subTopicName fromTopic toTopic : String) :
    QuestionState :=
  let sourceSubTopics := recGetD s.config.subTopicOrder fromTopic
  let updatedSourceSubTopics := sourceSubTopics.filter (fun st => st ≠ subTopicName)
  let destSubTopics := recGetD s.config.subTopicOrder toTopic
  let updatedDestSubTopics := destSubTopics ++ [subTopicName]
  let updatedQuestions := s.questions.map (fun q =>
    if q.topic = fromTopic ∧ q.subTopic = some subTopicName
    then { q with topic := toTopic } else q)
  { s with
    config := { s.config with
      subTopicOrder :=
        recSet (recSet s.config.subTopicOrder fromTopic updatedSourceSubTopics)
          toTopic updatedDestSubTopics }
    questions := updatedQuestions }

/-- `deleteQuestion` (QuestionStore.ts lines 437-451): filters the id out of the
collection and out of `questionOrder`. -/
def deleteQuestion (s : QuestionState) (questionId : String) : QuestionState :=
  let updatedQuestions := s.questions.filter (fun q => q._id ≠ questionId)
  let updatedQuestionOrder := s.config.questionOrder.filter (fun i => i ≠ questionId)
  { s with
    questions := updatedQuestions
    config := { s.config with questionOrder := updatedQuestionOrder } }

/-- `reorderQuestions` (QuestionStore.ts lines 453-461): replaces `questionOrder`
wholesale. -/
def reorderQuestions (s : QuestionState) (newOrder : List String) : QuestionState :=
  { s with config := { s.config with questionOrder := newOrder } }

/-- `moveQuestionToSubTopic` (QuestionStore.ts lines 463-477): rewrites the
matching question's `topic`/`subTopic`; touches nothing else (in particular not
`questionOrder`). -/
def moveQuestionToSubTopic (s : QuestionState) (questionId toTopic : String)
    (toSubTopic : Option String) : QuestionState :=
  { s with questions := s.questions.map (fun q =>
      if q._id = questionId then { q with topic := toTopic, subTopic := toSubTopic } else q) }

/-- `getQuestionsByTopic` (QuestionStore.ts lines 480-483): pure filter by field
equality, not consulting `questionOrder`. -/
def getQuestionsByTopic (s : QuestionState) (topicName : String) : List Question :=
  s.questions.filter (fun q => q.topic = topicName)

/-- `getQuestionsBySubTopic` (QuestionStore.ts lines 485-490). -/
def getQuestionsBySubTopic (s : QuestionState) (topicName subTopicName : String) :
    List Question :=
  s.questions.filter (fun q => q.topic = topicName ∧ q.subTopic = some subTopicName)

/-! ## Ingestion transform (`fetchSheetData`, QuestionStore.ts lines 87-194)

The part-pattern test embeds the JS regex
`/^(.*?)\s+(Part-[IVX]+|part-\d+)$/i`: a lazy prefix (group 1), at least one
whitespace character, then — case-insensitively — `part-` followed by a
non-empty run of Roman-numeral letters or a non-empty run of digits, anchored
at both ends. Lazy matching makes group 1 the shortest such prefix; the code
then applies `.trim()` to it. -/

/-- JS `\s` on the whitespace characters occurring in ordinary strings. -/
def isWS (c : Char) : Bool := c = ' ' || c = '\t' || c = '\n' || c = '\r'

/-- Case-insensitive `[IVX]` (the `i` flag makes the class match lowercase too). -/
def isRomanChar (c : Char) : Bool :=
  c = 'I' || c = 'V' || c = 'X' || c = 'i' || c = 'v' || c = 'x'

/-- Case-insensitive match of `Part-[IVX]+|part-\d+` against an entire suffix. -/
def matchPartToken : List Char → Bool
  | p :: a :: r :: t :: dash :: rest =>
    (p = 'P' || p = 'p') && (a = 'A' || a = 'a') && (r = 'R' || r = 'r') &&
    (t = 'T' || t = 't') && (dash = '-') && (!rest.isEmpty) &&
    (rest.all isRomanChar || rest.all (fun c => c.isDigit))
  | _ => false

/-- Match of `\s+(Part-[IVX]+|part-\d+)$` against an entire suffix: a non-empty
whitespace run followed by the part token. -/
def matchPartTail (cs : List Char) : Bool :=
  (!(cs.takeWhile isWS).isEmpty) && matchPartToken (cs.dropWhile isWS)

/-- Lazy scan for the regex: the shortest prefix whose complement matches the
tail pattern; returns that prefix (i.e. capture group 1) when the regex matches. -/
def findBase (pre rest : List Char) : Option (List Char) :=
  match rest with
  | [] => none
  | c :: rest' =>
    if matchPartTail (c :: rest') then some pre.reverse
    else findBase (c :: pre) rest'

/-- JS `String.prototype.trim` on a character list. -/
def jsTrim (cs : List Char) : List Char :=
  ((cs.dropWhile isWS).reverse.dropWhile isWS).reverse

/-- `topic.match(/^(.*?)\s+(Part-[IVX]+|part-\d+)$/i)` followed by
`partMatch[1].trim()`: the trimmed base topic when the name is a "part". -/
def partBase (topic : String) : Option String :=
  (findBase [] topic.data).map (fun base => String.mk (jsTrim base))

/-- JS `String.prototype.startsWith` (case-sensitive prefix test). -/
def jsStartsWith (p s : String) : Bool := p.data.isPrefixOf s.data

/-- `config.topicOrder.some((t) => t.startsWith(topic + " Part-"))` (the look-ahead
in the first ingestion pass; case-sensitive `startsWith`). -/
def hasPartTopics (order : List String) (topic : String) : Bool :=
  order.any (fun t => jsStartsWith (topic ++ " Part-") t)

/-- First ingestion pass (QuestionStore.ts lines 108-136): build `topicGroups`,
keyed by base topic in first-encounter order. A part name is pushed onto its
base's group; a non-part name that has part siblings starts (or extends) its
own group containing itself; any other name becomes a memberless group. -/
def buildTopicGroups (topicOrder : List String) : JsRecord (List String) :=
  topicOrder.foldl
    (fun topicGroups topic =>
      match partBase topic with
      | some baseTopic =>
        recSet topicGroups baseTopic (recGetD topicGroups baseTopic ++ [topic])
      | none =>
        if hasPartTopics topicOrder topic then
          recSet topicGroups topic (recGetD topicGroups topic ++ [topic])
        else
          recSet topicGroups topic [])
    []

/-- Second ingestion pass (QuestionStore.ts lines 139-160): iterate groups in
key order producing `(transformedTopicOrder, transformedSubTopicOrder,
topicMapping)`; a group with more than one member becomes a topic with that
member list as subtopics, otherwise a standalone topic mapped to `(base, null)`. -/
def secondPass (topicGroups : JsRecord (List String)) :
    List String × JsRecord (List String) × JsRecord (String × Option String) :=
  topicGroups.foldl
    (fun acc p =>
      let transformedTopicOrder := acc.1 ++ [p.1]
      if p.2.length > 1 then
        (transformedTopicOrder,
         recSet acc.2.1 p.1 p.2,
         p.2.foldl (fun mapping originalTopic =>
           recSet mapping originalTopic (p.1, some originalTopic)) acc.2.2)
      else
        (transformedTopicOrder, acc.2.1, recSet acc.2.2 p.1 (p.1, none)))
    ([], [], [])

/-- Question rewrite of the ingestion (QuestionStore.ts lines 163-176): rewrite
`topic`/`subTopic` through the mapping; unmapped topics pass through unchanged. -/
def transformQuestions (topicMapping : JsRecord (String × Option String))
    (questions : List Question) : List Question :=
  questions.map (fun q =>
    match recGet topicMapping q.topic with
    | some m => { q with topic := m.1, subTopic := m.2 }
    | none => q)

/-- The fetched payload's `sheet.config` (absent fields are `none`; the JS
truthiness guards only fire on absent/null fields, since `[]` is truthy). -/
structure RawSheetConfig where
  topicOrder : Option (List String)
  questionOrder : Option (List String)
deriving Repr, DecidableEq

/-- The fetched payload `response.data.data` as far as `fetchSheetData` reads it. -/
structure RawPayload where
  config : Option RawSheetConfig
  questions : Option (List Question)
deriving Repr, DecidableEq

/-- `fetchSheetData` (QuestionStore.ts lines 87-194) as a pure transition on the
store state, parameterised by the fetched payload. Sets `loading`/`error` first;
on a missing `config`, `config.topicOrder` or `questions` the thrown error is
caught and recorded with `loading := false` and no other state change; on
success the transformed config and questions are committed. -/
def fetchSheetData (s : QuestionState) (payload : RawPayload) : QuestionState :=
  let s1 : QuestionState := { s with loading := true, error := none }
  match payload.config, payload.questions with
  | some config, some questions =>
    match config.topicOrder with
    | some topicOrder =>
      let topicGroups := buildTopicGroups topicOrder
      let res := secondPass topicGroups
      { s1 with
        config := { topicOrder := res.1
                    subTopicOrder := res.2.1
                    questionOrder := config.questionOrder.getD [] }
        questions := transformQuestions res.2.2 questions
        loading := false }
    | none => { s1 with error := some "Invalid data structure from API", loading := false }
  | _, _ => { s1 with error := some "Invalid data structure from API", loading := false }

/-! ## Drag reconciliation (`handleDragEnd`, App.tsx lines 52-177)

Identifiers encode the dragged element and the drop target:
`topic:<name>`, `subtopic:<topic>:<subtopic>`, `question:<id>`. JS truthiness
guards on the parsed fields are embedded explicitly: a string field is truthy
iff non-empty; the possibly-`undefined` second component of a subtopic id is an
`Option`. -/

/-- Parsed drag identifier (the tagged result of `parseId`, App.tsx lines 62-76).
For a `subtopic:` id the second `split(":")` component may be absent. -/
inductive ParsedId where
  | topic (name : String)
  | subtopic (topic : String) (subtopic : Option String)
  | question (id : String)
deriving Repr, DecidableEq

/-- JS `String.prototype.split` with a single-character separator (the code only
splits on `":"`): splitting the empty string yields `[""]`. -/
def splitOnChar (sep : Char) : List Char → List (List Char)
  | [] => [[]]
  | c :: rest =>
    if c = sep then [] :: splitOnChar sep rest
    else
      match splitOnChar sep rest with
      | [] => [[c]]
      | h :: t => (c :: h) :: t

/-- `parseId` (App.tsx lines 62-76): dispatch on the id's prefix; any other shape
fails to parse. `split(":")` always yields at least one component (`parts[0]`);
`parts[1]` may be `undefined`. -/
def parseId (id : String) : Option ParsedId :=
  if jsStartsWith "topic:" id then
    some (.topic (String.mk (id.data.drop 6)))
  else if jsStartsWith "subtopic:" id then
    let parts := (splitOnChar ':' (id.data.drop 9)).map String.mk
    some (.subtopic (parts.headD "") parts[1]?)
  else if jsStartsWith "question:" id then
    some (.question (String.mk (id.data.drop 9)))
  else none

/-- JS truthiness of a string: non-empty. -/
def strTruthy (s : String) : Bool := s ≠ ""

/-- JS truthiness of a possibly-`undefined` string. -/
def optTruthy : Option String → Bool
  | none => false
  | some s => s ≠ ""

/-- JS `Array.prototype.indexOf` by strict equality, as `some index` / `none`
in place of `index` / `-1`. -/
def jsIndexOf (l : List String) (x : String) : Option Nat :=
  match l with
  | [] => none
  | y :: rest => if y = x then some 0 else (jsIndexOf rest x).map (· + 1)

/-- The two-splice move used throughout `handleDragEnd`: remove the element at
`oldIndex`, then insert it at `newIndex` of the shortened list (JS
`splice(oldIndex, 1)` followed by `splice(newIndex, 0, removed)`). -/
def spliceMove (l : List String) (oldIndex newIndex : Nat) : List String :=
  match l[oldIndex]? with
  | none => l.take oldIndex ++ l.drop (oldIndex + 1)
  | some removed =>
    let l1 := l.take oldIndex ++ l.drop (oldIndex + 1)
    l1.take newIndex ++ removed :: l1.drop newIndex

/-- The body of `handleDragEnd` after both ids parsed (App.tsx lines 84-176):
the three kind-homogeneous branches; any other kind combination leaves the
state unchanged. -/
def dispatchDrag (s : QuestionState) : ParsedId → ParsedId → QuestionState
  | .topic activeName, .topic overName =>
    if strTruthy activeName && strTruthy overName then
      match jsIndexOf s.config.topicOrder activeName,
            jsIndexOf s.config.topicOrder overName with
      | some oldIndex, some newIndex =>
        reorderTopics s (spliceMove s.config.topicOrder oldIndex newIndex)
      | _, _ => s
    else s
  | .subtopic activeTopic activeSub, .subtopic overTopic overSub =>
    if strTruthy activeTopic && optTruthy activeSub &&
       strTruthy overTopic && optTruthy overSub then
      match activeSub, overSub with
      | some activeSubName, some overSubName =>
        if activeTopic = overTopic then
          let subTopics := recGetD s.config.subTopicOrder activeTopic
          match jsIndexOf subTopics activeSubName, jsIndexOf subTopics overSubName with
          | some oldIndex, some newIndex =>
            reorderSubTopics s activeTopic (spliceMove subTopics oldIndex newIndex)
          | _, _ => s
        else
          moveSubTopicToTopic s activeSubName activeTopic overTopic
      | _, _ => s
    else s
  | .question activeQId, .question overQId =>
    if strTruthy activeQId && strTruthy overQId then
      match s.questions.find? (fun q => q._id = activeQId),
            s.questions.find? (fun q => q._id = overQId) with
      | some activeQuestion, some overQuestion =>
        if activeQuestion.topic = overQuestion.topic ∧
           activeQuestion.subTopic = overQuestion.subTopic then
          match jsIndexOf s.config.questionOrder activeQId,
                jsIndexOf s.config.questionOrder overQId with
          | some oldIndex, some newIndex =>
            reorderQuestions s (spliceMove s.config.questionOrder oldIndex newIndex)
          | _, _ => s
        else
          let s1 := moveQuestionToSubTopic s activeQId overQuestion.topic
            overQuestion.subTopic
          match jsIndexOf s.config.questionOrder activeQId,
                jsIndexOf s.config.questionOrder overQId with
          | some oldIndex, some newIndex =>
            reorderQuestions s1 (spliceMove s.config.questionOrder oldIndex newIndex)
          | _, _ => s1
      | _, _ => s
    else s
  | _, _ => s

/-- `handleDragEnd` (App.tsx lines 52-177) as a pure transition: a missing or
identical drop target, or either id failing to parse, leaves the state
unchanged; otherwise the parsed pair is dispatched. -/
def handleDragEnd (s : QuestionState) (activeId overId : String) : QuestionState :=
  if activeId = overId then s
  else
    match parseId activeId, parseId overId with
    | some activeParsed, some overParsed => dispatchDrag s activeParsed overParsed
    | _, _ => s

/-- Kind tag of a parsed drag identifier, used to state kind-mismatch no-ops. -/
def kindTag : ParsedId → Nat
  | .topic _ => 0
  | .subtopic _ _ => 1
  | .question _ => 2

/-! ## Helper lemmas about the JS-record embedding -/

theorem recGet_recSet_self {α : Type} (m : JsRecord α) (k : String) (v : α) :
    recGet (recSet m k v) k = some v := by
  induction m with
  | nil => simp [recSet, recGet]
  | cons p rest ih =>
    obtain ⟨k', v'⟩ := p
    by_cases h : k' = k <;> simp [recSet, recGet, h, ih]

theorem recGet_recSet_ne {α : Type} (m : JsRecord α) (k k' : String) (v : α)
    (h : k' ≠ k) : recGet (recSet m k v) k' = recGet m k' := by
  induction m with
  | nil => simp [recSet, recGet, Ne.symm h]
  | cons p rest ih =>
    obtain ⟨k₀, v₀⟩ := p
    by_cases h0 : k₀ = k
    · subst h0
      simp [recSet, recGet, Ne.symm h]
    · simp [recSet, recGet, h0, ih]

theorem recGet_recDelete_self {α : Type} (m : JsRecord α) (k : String) :
    recGet (recDelete m k) k = none := by
  induction m with
  | nil => simp [recDelete, recGet]
  | cons p rest ih =>
    obtain ⟨k₀, v₀⟩ := p
    by_cases h0 : k₀ = k
    · subst h0; simpa [recDelete, List.filter] using ih
    · simpa [recDelete, List.filter, h0, recGet] using ih

/-! ## Concrete sample states used by the claim theorems -/

/-- A question record with the given id, topic and subtopic (remaining fields
inert for the hierarchy logic). -/
def mkQuestion (i t : String) (st : Option String) : Question :=
  { _id := i, title := "", topic := t, subTopic := st, resource := none,
    questionId := { _id := "", name := "", difficulty := "", platform := "", problemUrl := "" } }

/-- Empty initial store state (QuestionStore.ts lines 77-84). -/
def initialState : QuestionState :=
  { config := { topicOrder := [], subTopicOrder := [], questionOrder := [] },
    questions := [], loading := false, error := none }

/-- Two items `x ∈ (C1, null)` and `y ∈ (C2, null)` with `questionOrder = [x, y]`:
the cross-container scenario of the spec's testable property. -/
def stCross : QuestionState :=
  { config := { topicOrder := ["C1", "C2"], subTopicOrder := [], questionOrder := ["x", "y"] },
    questions := [mkQuestion "x" "C1" none, mkQuestion "y" "C2" none],
    loading := false, error := none }

/-- Duplicate-free two-topic state. -/
def stAB : QuestionState :=
  { config := { topicOrder := ["A", "B"], subTopicOrder := [], questionOrder := [] },
    questions := [], loading := false, error := none }

/-- Three-topic state for the category splice-reorder scenario. -/
def stABC : QuestionState :=
  { config := { topicOrder := ["A", "B", "C"], subTopicOrder := [], questionOrder := [] },
    questions := [], loading := false, error := none }

/-- A state whose question `q1` (topic `B`) is absent from `questionOrder`. -/
def stGhostItem : QuestionState :=
  { config := { topicOrder := ["A", "B"], subTopicOrder := [], questionOrder := [] },
    questions := [mkQuestion "q1" "B" none], loading := false, error := none }

/-- A state satisfying the id-tracking precondition: both ids in `questionOrder`. -/
def stTwoTopics : QuestionState :=
  { config := { topicOrder := ["A", "B"], subTopicOrder := [("A", ["A1"])],
                questionOrder := ["a", "b"] },
    questions := [mkQuestion "a" "A" none, mkQuestion "b" "B" none],
    loading := false, error := none }

/-- A state whose `questionOrder` holds an id with no backing question. -/
def stGhostOrder : QuestionState :=
  { config := { topicOrder := [], subTopicOrder := [], questionOrder := ["ghost"] },
    questions := [], loading := false, error := none }

/-- One topic `T` with one subtopic `S`. -/
def stTS : QuestionState :=
  { config := { topicOrder := ["T"], subTopicOrder := [("T", ["S"])], questionOrder := [] },
    questions := [], loading := false, error := none }

/-- The ingestion payload of the part-detection scenario. -/
def payloadParts : RawPayload :=
  { config := some { topicOrder := some ["Arrays", "DP Part-I", "DP Part-II", "Graphs"],
                     questionOrder := some [] },
    questions := some [] }

/-- A payload with no `config` at all. -/
def payloadNoConfig : RawPayload :=
  { config := none, questions := some [] }

/-! ## Claim theorems -/

/-- C1 counterexample: in the cross-container scenario (`x ∈ (C1, null)`,
`y ∈ (C2, null)`, `questionOrder = [x, y]`), reconciling the item-onto-item drag
`source = x, target = y` does NOT leave `questionOrder` as `[x, y]`: the claim's
"itemOrder unchanged in the relative order [X, Y]" is false at this input. -/
theorem c1_counterexample :
    (handleDragEnd stCross "question:x" "question:y").config.questionOrder ≠ ["x", "y"] := by
  decide

/-- C1 (amended): reconciling the cross-container item drag `source = x,
target = y` rewrites `x`'s `(category, subCategory)` to `y`'s (so
`x.category = C2`) and in the same step splice-reorders `questionOrder` from
`[x, y]` to `[y, x]`: `x` is removed and reinserted at `y`'s index, ending
adjacent to `y` but after it, not in the unchanged relative order `[x, y]`. -/
theorem c1_cross_container_move :
    handleDragEnd stCross "question:x" "question:y" =
      { stCross with
        questions := [mkQuestion "x" "C2" none, mkQuestion "y" "C2" none],
        config := { stCross.config with questionOrder := ["y", "x"] } } := by
  decide

/-- C4: the ingestion transform on the flat category list
`["Arrays", "DP Part-I", "DP Part-II", "Graphs"]` yields bases
`["Arrays", "DP", "Graphs"]` in first-encounter order, and a `subTopicOrder`
containing exactly the entry `DP ↦ ["DP Part-I", "DP Part-II"]` (no entries for
the standalone categories). -/
theorem c4_part_detection :
    (fetchSheetData initialState payloadParts).config.topicOrder =
      ["Arrays", "DP", "Graphs"] ∧
    (fetchSheetData initialState payloadParts).config.subTopicOrder =
      [("DP", ["DP Part-I", "DP Part-II"])] := by
  decide

/-- C7: reconciling the category-onto-category drag `source = A, target = C` on
`topicOrder = ["A", "B", "C"]` performs a positional splice with list-move
semantics, yielding `["B", "C", "A"]` (and touching nothing else). -/
theorem c7_category_splice :
    handleDragEnd stABC "topic:A" "topic:C" =
      { stABC with config := { stABC.config with topicOrder := ["B", "C", "A"] } } := by
  decide

/-- C10: after `deleteSubTopic c sub`, `subTopicOrder` has an entry for `c` —
equal to the previous (or defaulted empty) list with `sub` filtered out, so an
empty-list entry is created when `c` had no entry — and that entry does not
contain `sub`. -/
theorem c10_delete_subtopic_entry (s : QuestionState) (c sub : String) :
    recGet (deleteSubTopic s c sub).config.subTopicOrder c =
      some ((recGetD s.config.subTopicOrder c).filter (fun st => st ≠ sub)) ∧
    sub ∉ recGetD (deleteSubTopic s c sub).config.subTopicOrder c := by
  have hget : recGet (deleteSubTopic s c sub).config.subTopicOrder c =
      some ((recGetD s.config.subTopicOrder c).filter (fun st => st ≠ sub)) := by
    simp [deleteSubTopic, recGet_recSet_self]
  refine ⟨hget, ?_⟩
  simp [recGetD, hget, List.mem_filter]

/-- C2 counterexample: on `topicOrder = ["A", "B"]`, `editTopic "A" "B"` (renaming
onto an existing name) produces `["B", "B"]`, so `topicOrder` has a duplicate
after a completed mutation — the claimed invariant fails at this input. -/
theorem c2_counterexample :
    ¬ (editTopic stAB "A" "B").config.topicOrder.Nodup := by
  decide

/-- C2 (amended): `topicOrder` stays duplicate-free across `addTopic` and
`deleteTopic`, and across `editTopic oldName newName` provided the new name is
not already another entry (fresh, or equal to the old name); a rename colliding
with an existing name silently merges and can create duplicates, as can
`reorderTopics` with a duplicated `newOrder`. -/
theorem c2_nodup_preservation (s : QuestionState) (n oldName newName : String)
    (h : s.config.topicOrder.Nodup)
    (hfresh : newName ∉ s.config.topicOrder ∨ newName = oldName) :
    (addTopic s n).config.topicOrder.Nodup ∧
    (deleteTopic s n).config.topicOrder.Nodup ∧
    (editTopic s oldName newName).config.topicOrder.Nodup := by
  refine ⟨?_, ?_, ?_⟩
  · by_cases hc : n ∈ s.config.topicOrder
    · simpa [addTopic, List.contains, hc] using h
    · have : (s.config.topicOrder ++ [n]).Nodup :=
        h.append (List.nodup_singleton n)
          (fun a ha hb => hc ((List.mem_singleton.mp hb) ▸ ha))
      simpa [addTopic, List.contains, hc] using this
  · simpa [deleteTopic] using h.filter _
  · have hinj : ∀ x ∈ s.config.topicOrder, ∀ y ∈ s.config.topicOrder,
        (if x = oldName then newName else x) = (if y = oldName then newName else y) →
        x = y := by
      intro x hx y hy hxy
      by_cases hxo : x = oldName <;> by_cases hyo : y = oldName <;>
        simp [hxo, hyo] at hxy ⊢
      · rcases hfresh with hf | hf
        · exact absurd (hxy ▸ hy) hf
        · exact absurd (hxy.symm.trans hf) hyo
      · rcases hfresh with hf | hf
        · exact absurd (hxy ▸ hx) hf
        · exact absurd (hxy.trans hf) hxo
      · exact hxy
    simpa [editTopic] using h.map_on hinj

/-- C2 witness: the preservation theorem applied to the concrete two-topic state
with a fresh rename target. -/
theorem c2_nodup_preservation_witness :
    (addTopic stAB "Z").config.topicOrder.Nodup ∧
    (deleteTopic stAB "Z").config.topicOrder.Nodup ∧
    (editTopic stAB "A" "C").config.topicOrder.Nodup :=
  c2_nodup_preservation stAB "Z" "A" "C" (by decide) (Or.inl (by decide))

/-- C3 counterexample: in a state whose surviving question `q1` (topic `B`) was
never in `questionOrder`, after `deleteTopic "A"` the item still exists but its
id is not a member of `questionOrder` — the claimed "id ∈ itemOrder iff the item
still exists" fails for this remaining item. -/
theorem c3_counterexample :
    mkQuestion "q1" "B" none ∈ (deleteTopic stGhostItem "A").questions ∧
    "q1" ∉ (deleteTopic stGhostItem "A").config.questionOrder := by
  decide

/-- C3 (amended): provided every item's id was in `questionOrder` before the
call, `deleteTopic c` removes `c` from `topicOrder`, drops the `subTopicOrder`
entry for `c`, deletes exactly the items under `c`, and prunes `questionOrder`
to surviving ids: any id `i` is in the new `questionOrder` iff a surviving item
carries it. -/
theorem c3_cascade_delete (s : QuestionState) (c i : String)
    (hpre : ∀ q ∈ s.questions, q._id ∈ s.config.questionOrder) :
    c ∉ (deleteTopic s c).config.topicOrder ∧
    recGet (deleteTopic s c).config.subTopicOrder c = none ∧
    (deleteTopic s c).questions = s.questions.filter (fun q => q.topic ≠ c) ∧
    (i ∈ (deleteTopic s c).config.questionOrder ↔
      ∃ q ∈ (deleteTopic s c).questions, q._id = i) := by
  refine ⟨?_, ?_, rfl, ?_⟩
  · simp [deleteTopic, List.mem_filter]
  · simp [deleteTopic, recGet_recDelete_self]
  · show i ∈ s.config.questionOrder.filter
        (fun qId => (s.questions.filter (fun q => q.topic ≠ c)).any (fun q => q._id = qId)) ↔
      ∃ q ∈ s.questions.filter (fun q => q.topic ≠ c), q._id = i
    constructor
    · intro hi
      obtain ⟨hmem, hany⟩ := List.mem_filter.mp hi
      obtain ⟨q, hq, hid⟩ := List.any_eq_true.mp hany
      exact ⟨q, hq, by simpa using hid⟩
    · rintro ⟨q, hq, rfl⟩
      refine List.mem_filter.mpr ⟨hpre q (List.mem_filter.mp hq).1, ?_⟩
      exact List.any_eq_true.mpr ⟨q, hq, by simp⟩

/-- C3 witness: the cascade-delete theorem applied to the concrete two-topic
state (items `a ∈ A`, `b ∈ B`, `questionOrder = [a, b]`) at id `b`. -/
theorem c3_cascade_delete_witness :
    "A" ∉ (deleteTopic stTwoTopics "A").config.topicOrder ∧
    recGet (deleteTopic stTwoTopics "A").config.subTopicOrder "A" = none ∧
    (deleteTopic stTwoTopics "A").questions =
      stTwoTopics.questions.filter (fun q => q.topic ≠ "A") ∧
    ("b" ∈ (deleteTopic stTwoTopics "A").config.questionOrder ↔
      ∃ q ∈ (deleteTopic stTwoTopics "A").questions, q._id = "b") :=
  c3_cascade_delete stTwoTopics "A" "b" (by decide)

/-- C5: when the fetched payload lacks `config`, `config.topicOrder` or
`questions`, ingestion fails as a whole: the error flag becomes a non-null
message, `loading` becomes `false`, and neither `config` nor `questions` of the
store is modified. -/
theorem c5_ingestion_failure (s : QuestionState) (payload : RawPayload)
    (h : payload.config = none ∨
      (∃ c, payload.config = some c ∧ c.topicOrder = none) ∨
      payload.questions = none) :
    (fetchSheetData s payload).error = some "Invalid data structure from API" ∧
    (fetchSheetData s payload).loading = false ∧
    (fetchSheetData s payload).config = s.config ∧
    (fetchSheetData s payload).questions = s.questions := by
  rcases h with h | ⟨c, hc, ht⟩ | h
  · simp [fetchSheetData, h]
  · cases hq : payload.questions <;> simp [fetchSheetData, hc, ht, hq]
  · cases hc : payload.config <;> simp [fetchSheetData, h, hc]

/-- C5 witness: the failure theorem applied to the cross-container state and a
payload with no `config`. -/
theorem c5_ingestion_failure_witness :
    (fetchSheetData stCross payloadNoConfig).error =
      some "Invalid data structure from API" ∧
    (fetchSheetData stCross payloadNoConfig).loading = false ∧
    (fetchSheetData stCross payloadNoConfig).config = stCross.config ∧
    (fetchSheetData stCross payloadNoConfig).questions = stCross.questions :=
  c5_ingestion_failure stCross payloadNoConfig (Or.inl rfl)

/-- C6 counterexample: with `subTopicOrder = [("T", ["S"])]`, calling
`moveSubTopicToTopic "S" "T" "T"` (source container equal to destination) leaves
`"S"` a member of `subTopicOrder["T"]` (in fact duplicates it) instead of
removing it — the claim's "for every pair of categories" fails at `from = to`. -/
theorem c6_counterexample :
    "S" ∈ recGetD (moveSubTopicToTopic stTS "S" "T" "T").config.subTopicOrder "T" := by
  decide

/-- C6 (amended): for every sub-category name and every pair of DISTINCT
categories `from ≠ to`, `moveSubTopicToTopic name from to` removes `name` from
`subTopicOrder[from]` (the entry becomes the old list with `name` filtered out),
appends `name` at the end of `subTopicOrder[to]`, and relabels exactly the items
in `(from, name)` to category `to`, leaving every item's `subCategory`
unchanged; when `from = to` the removal is lost and `name` is duplicated. -/
theorem c6_move_subcategory (s : QuestionState) (name fromT toT : String)
    (hne : fromT ≠ toT) :
    recGet (moveSubTopicToTopic s name fromT toT).config.subTopicOrder fromT =
      some ((recGetD s.config.subTopicOrder fromT).filter (fun st => st ≠ name)) ∧
    name ∉ recGetD (moveSubTopicToTopic s name fromT toT).config.subTopicOrder fromT ∧
    recGet (moveSubTopicToTopic s name fromT toT).config.subTopicOrder toT =
      some (recGetD s.config.subTopicOrder toT ++ [name]) ∧
    (moveSubTopicToTopic s name fromT toT).questions = s.questions.map (fun q =>
      if q.topic = fromT ∧ q.subTopic = some name then { q with topic := toT } else q) := by
  have hfrom : recGet (moveSubTopicToTopic s name fromT toT).config.subTopicOrder fromT =
      some ((recGetD s.config.subTopicOrder fromT).filter (fun st => st ≠ name)) := by
    show recGet (recSet (recSet s.config.subTopicOrder fromT
        ((recGetD s.config.subTopicOrder fromT).filter (fun st => st ≠ name))) toT
        (recGetD s.config.subTopicOrder toT ++ [name])) fromT = _
    rw [recGet_recSet_ne _ _ _ _ hne, recGet_recSet_self]
  refine ⟨hfrom, ?_, ?_, rfl⟩
  · simp [recGetD, hfrom, List.mem_filter]
  · show recGet (recSet (recSet s.config.subTopicOrder fromT
        ((recGetD s.config.subTopicOrder fromT).filter (fun st => st ≠ name))) toT
        (recGetD s.config.subTopicOrder toT ++ [name])) toT = _
    rw [recGet_recSet_self]

/-- C6 witness: the move theorem applied at distinct categories `T` and `U` on
the concrete one-subtopic state. -/
theorem c6_move_subcategory_witness :
    recGet (moveSubTopicToTopic stTS "S" "T" "U").config.subTopicOrder "T" =
      some ((recGetD stTS.config.subTopicOrder "T").filter (fun st => st ≠ "S")) ∧
    "S" ∉ recGetD (moveSubTopicToTopic stTS "S" "T" "U").config.subTopicOrder "T" ∧
    recGet (moveSubTopicToTopic stTS "S" "T" "U").config.subTopicOrder "U" =
      some (recGetD stTS.config.subTopicOrder "U" ++ ["S"]) ∧
    (moveSubTopicToTopic stTS "S" "T" "U").questions = stTS.questions.map (fun q =>
      if q.topic = "T" ∧ q.subTopic = some "S" then { q with topic := "U" } else q) :=
  c6_move_subcategory stTS "S" "T" "U" (by decide)

/-- C9 counterexample: with `questionOrder = ["ghost"]` and an empty collection,
`deleteQuestion "ghost"` matches no item yet changes the state (it strips the id
from `questionOrder`) — the claimed unconditional no-op fails at this input. -/
theorem c9_counterexample :
    deleteQuestion stGhostOrder "ghost" ≠ stGhostOrder := by
  decide

/-- C9 (amended): `deleteQuestion qid` leaves the entire store state unchanged
whenever `qid` matches no item AND does not occur in `questionOrder`; when the
dangling id does occur in `questionOrder` it is still filtered out of it. -/
theorem c9_delete_missing (s : QuestionState) (qid : String)
    (h1 : ∀ q ∈ s.questions, q._id ≠ qid)
    (h2 : qid ∉ s.config.questionOrder) :
    deleteQuestion s qid = s := by
  have hq : s.questions.filter (fun q => q._id ≠ qid) = s.questions :=
    List.filter_eq_self.mpr (fun q hq => by simpa using h1 q hq)
  have ho : s.config.questionOrder.filter (fun i => i ≠ qid) = s.config.questionOrder :=
    List.filter_eq_self.mpr (fun i hi => by
      simp only [ne_eq, decide_not, Bool.not_eq_eq_eq_not, Bool.not_true, decide_eq_false_iff_not]
      rintro rfl
      exact h2 hi)
  simp only [deleteQuestion]
  rw [hq, ho]

/-- C9 witness: deleting a dangling id absent from both the collection and
`questionOrder` on the concrete two-topic state. -/
theorem c9_delete_missing_witness :
    deleteQuestion stTwoTopics "zz" = stTwoTopics :=
  c9_delete_missing stTwoTopics "zz" (by decide) (by decide)

/-- C8: a drag gesture leaves the entire store state unchanged whenever either
identifier fails to parse, the two identifiers are equal, the two parse to
different kinds, or — for an item-onto-item gesture — either id resolves to no
question in the collection. -/
theorem c8_drag_noop (s : QuestionState) (activeId overId : String)
    (h : parseId activeId = none ∨ parseId overId = none ∨ activeId = overId ∨
      (∃ a o, parseId activeId = some a ∧ parseId overId = some o ∧
        kindTag a ≠ kindTag o) ∨
      (∃ aq oq, parseId activeId = some (.question aq) ∧
        parseId overId = some (.question oq) ∧
        (s.questions.find? (fun q => q._id = aq) = none ∨
         s.questions.find? (fun q => q._id = oq) = none))) :
    handleDragEnd s activeId overId = s := by
  by_cases heq : activeId = overId
  · simp [handleDragEnd, heq]
  rcases h with h | h | h | ⟨a, o, ha, ho, hk⟩ | ⟨aq, oq, ha, ho, hmiss⟩
  · simp [handleDragEnd, heq, h]
  · cases hpa : parseId activeId <;> simp [handleDragEnd, heq, h, hpa]
  · exact absurd h heq
  · rw [handleDragEnd, if_neg heq, ha, ho]
    show dispatchDrag s a o = s
    cases a <;> cases o <;> first
      | rfl
      | (exfalso; exact hk (by simp [kindTag]))
  · rw [handleDragEnd, if_neg heq, ha, ho]
    show dispatchDrag s (.question aq) (.question oq) = s
    by_cases hg : (strTruthy aq && strTruthy oq) = true
    · rcases hmiss with hm | hm
      · simp [dispatchDrag, hg, hm]
      · cases hfa : s.questions.find? (fun q => q._id = aq) <;>
          simp [dispatchDrag, hg, hm, hfa]
    · simp [dispatchDrag, hg]

/-- C8 witness: an unparseable source identifier on the concrete cross-container
state is a no-op. -/
theorem c8_drag_noop_witness :
    handleDragEnd stCross "garbage" "topic:C1" = stCross :=
  c8_drag_noop stCross "garbage" "topic:C1" (Or.inl (by decide))

end QSheet








